import Mathlib

/-! # A single-threaded epoll HTTP/1.1 file server (`server.c`)

Shallow embedding of `server.c` and the properties of its request handling.

Conventions of the embedding.

* A byte is a `Char`; a C string is the `List Char` of its bytes before the
  terminating NUL.  Raw memory that the string functions scan (the request
  `buffer` after `read`) is a `List Char` too; `cstr` cuts it at the first NUL.
* A function that writes to the socket returns the bytes it writes, in order:
  the bytes it hands to `write`.  What becomes of them on the connection is an
  input of the reactor step (`WriteResult`).
* `none` stands for an execution that C leaves undefined: a null pointer handed
  to `strcmp`, or an uninitialised array handed to `sprintf`/`strlen`.  For a
  step of the reactor, `none` is the end of the process, by such an execution
  or by a signal.
* The capacities of the character arrays (`BUFFER_SIZE`, 40, 50) are not
  represented: strings are unbounded lists.  `int`/`long` values are `Int`; no
  arithmetic is performed on them, so no wrap-around can occur.
-/

namespace WebServer

/-! ## Constants and C string primitives -/

/-- The constant `BUFFER_SIZE` (`#define BUFFER_SIZE 2048`). -/
def BUFFER_SIZE : Nat := 2048

/-- The NUL byte. -/
def NUL : Char := Char.ofNat 0

/-- The C string stored at the start of a region of memory: its bytes up to,
and not including, the first NUL. -/
def cstr (mem : List Char) : List Char :=
  mem.takeWhile (fun c => c != NUL)

/-- One call of `strtok` on the string `s` (for `strtok(NULL, delim)`, `s` is
the saved position).  Leading delimiters are skipped; when nothing is left the
call returns `NULL`.  Otherwise the token runs up to the next delimiter, which
is overwritten by NUL, and the saved position is the byte after it (or the end
of the string when the token ends the string).
The result is the token and the new saved position. -/
def strtok (s delim : List Char) : Option (List Char) × List Char :=
  let s1 := s.dropWhile (fun c => decide (c ∈ delim))
  if s1.isEmpty then (none, [])
  else (some (s1.takeWhile (fun c => !decide (c ∈ delim))),
        (s1.dropWhile (fun c => !decide (c ∈ delim))).tail)

/-- Function `strrchr(s, c)`: the suffix of `s` that starts at the last occurrence of
`c`, or `NULL` (`none`) when `c` does not occur. -/
def strrchr : List Char → Char → Option (List Char)
  | [], _ => none
  | x :: xs, c =>
    match strrchr xs c with
    | some r => some r
    | none => if x = c then some (x :: xs) else none

/-- The conversions `%d` and `%ld` of `sprintf`. -/
def printf_d (n : Int) : List Char := (toString n).toList

/-! ## `get_header`, `get_content_type`, `handle_error` -/

/-- The `switch` of `get_header`: `status_text` is written only for the four
listed codes and stays uninitialised otherwise. -/
def status_text (status_code : Int) : Option (List Char) :=
  if status_code = 200 then some "OK".toList
  else if status_code = 400 then some "Bad Request".toList
  else if status_code = 404 then some "Not Found".toList
  else if status_code = 500 then some "Internal Server Error".toList
  else none

/-- Function `get_header`: the string that `sprintf` stores in `header` for
`"HTTP/1.1 %d %s\nContent-Length: %ld\nContent-Type: %s\n\n"`. -/
def get_header (status_code : Int) (content_len : Int) (content_type : List Char) :
    Option (List Char) :=
  match status_text status_code with
  | none => none
  | some text =>
    some ("HTTP/1.1 ".toList ++ printf_d status_code ++ " ".toList ++ text ++
      "\nContent-Length: ".toList ++ printf_d content_len ++
      "\nContent-Type: ".toList ++ content_type ++ "\n\n".toList)

/-- Function `get_content_type`: `ext = strrchr(uri, '.')` is compared with `strcmp`
without a null check, so a `uri` without `'.'` has no defined result. -/
def get_content_type (uri : List Char) : Option (List Char) :=
  match strrchr uri '.' with
  | none => none
  | some ext =>
    if ext = ".html".toList then some "text/html".toList
    else if ext = ".jpg".toList ∨ ext = ".jpeg".toList then some "image/jpeg".toList
    else if ext = ".png".toList then some "image/png".toList
    else if ext = ".css".toList then some "text/css".toList
    else if ext = ".js".toList then some "text/javascript".toList
    else some "text/plain".toList

/-- The `switch` of `handle_error`: `content` is written only for 400, 404 and
500. -/
def error_content (status_code : Int) : Option (List Char) :=
  if status_code = 400 then some "<h1>400 Bad Request</h1>".toList
  else if status_code = 404 then some "<h1>404 Not Found</h1>".toList
  else if status_code = 500 then some "<h1>500 Internal Server Error</h1>".toList
  else none

/-- Function `handle_error`: the bytes written to `client_fd`, the header for
`strlen(content)` and `"text/html"`, then `content`. -/
def handle_error (status_code : Int) : Option (List Char) :=
  match error_content status_code with
  | none => none
  | some content =>
    match get_header status_code (content.length : Int) "text/html".toList with
    | none => none
    | some header => some (header ++ content)

/-! ## The filesystem seen by `stat`, `open` and `read` -/

/-- A view of the filesystem: `stat path` is `st_size` when `stat` succeeds,
`open_ path` is the content that `read` delivers when `open(path, O_RDONLY)`
succeeds. -/
structure FileSystem where
  stat : List Char → Option Nat
  open_ : List Char → Option (List Char)

/-- The loop `while ((size = read(fd, buffer, BUFFER_SIZE)) > 0) write(client_fd, buffer, size)`
on a file whose unread part is `rest`: the bytes written.  Each `read` delivers
the next `BUFFER_SIZE` bytes, or what is left of the file.  `fuel` bounds the
number of iterations; `none` when it runs out. -/
def copy_loop : Nat → List Char → Option (List Char)
  | 0, _ => none
  | fuel + 1, rest =>
    let chunk := rest.take BUFFER_SIZE
    if 0 < chunk.length then
      (copy_loop fuel (rest.drop BUFFER_SIZE)).map (fun body => chunk ++ body)
    else some []

/-! ## `main`: handling of one readable event -/

/-- Lines 118-122 of `main`: `target` after the two `sprintf` calls. -/
def main_target (path uri : List Char) : List Char :=
  let target := path ++ uri
  if uri = "/".toList then path ++ "/index.html".toList else target

/-- The three `strtok` calls of lines 106-108 on the string `s`: split on
`" "`, on `" "` again, then on `"\r\n"`. -/
def strtok3 (s : List Char) :
    Option (List Char) × Option (List Char) × Option (List Char) :=
  let r1 := strtok s " ".toList
  let r2 := strtok r1.2 " ".toList
  let r3 := strtok r2.2 "\r\n".toList
  (r1.1, r2.1, r3.1)

/-- Lines 106-108 of `main`: `method`, `uri` and `protocol`, tokenised from the
C string at `buffer`. -/
def main_tokens (buffer : List Char) :
    Option (List Char) × Option (List Char) × Option (List Char) :=
  strtok3 (cstr buffer)

/-- Lines 106-147 of `main`: the bytes written to `client_fd` after a positive
`read`.  `path` is `argv[2]`; `buffer` is the memory at `buffer` as the string
functions see it: the bytes just read, followed by whatever the array held
before (`read` stores no terminator). -/
def main_request (path : List Char) (fs : FileSystem) (buffer : List Char) :
    Option (List Char) :=
  match main_tokens buffer with
  | (some method, some uri, some protocol) =>
    if method ≠ "GET".toList ∨ protocol ≠ "HTTP/1.1".toList then handle_error 400
    else
      let target := main_target path uri
      match fs.stat target with
      | none => handle_error 404
      | some st_size =>
        match fs.open_ target with
        | none => handle_error 500
        | some file =>
          match get_content_type target with
          | none => none
          | some content_type =>
            match get_header 200 (st_size : Int) content_type with
            | none => none
            | some header =>
              (copy_loop (file.length + 1) file).map (fun body => header ++ body)
  | _ => handle_error 400

/-! ## `main`: the epoll loop -/

/-- State of the reactor: the listening descriptor, the open descriptors, the
epoll interest set, and the bytes written so far to each descriptor. -/
structure Reactor where
  server_fd : Nat
  opened : Finset Nat
  registered : Finset Nat
  out : Nat → List Char

/-- System call `close(fd)`: the descriptor is released; the kernel drops a closed
descriptor from every epoll interest set. -/
def close (st : Reactor) (fd : Nat) : Reactor :=
  { st with opened := st.opened.erase fd, registered := st.registered.erase fd }

/-- System call `epoll_ctl(epoll_fd, EPOLL_CTL_DEL, fd, NULL)`: fails with no effect on a
descriptor that is not open. -/
def epoll_ctl_del (st : Reactor) (fd : Nat) : Reactor :=
  if fd ∈ st.opened then { st with registered := st.registered.erase fd } else st

/-- What becomes of the bytes that one step hands to `write` on a socket.
Either the calls return, and `count` of the bytes have been transmitted in all
(a call that fails or comes up short transmits less than it was given; the
return value is never inspected), or a call finds the connection shut down by
the peer and raises SIGPIPE, which `server.c` leaves at its default action:
the process is terminated. -/
inductive WriteResult
  | sent (count : Nat)
  | sigpipe
  deriving DecidableEq

/-- The `write` calls of one step on `fd`, handed `bytes` in all: the state
afterwards, or `none` when SIGPIPE has terminated the process. -/
def write (st : Reactor) (fd : Nat) (bytes : List Char) (result : WriteResult) :
    Option Reactor :=
  match result with
  | WriteResult.sent count =>
    some { st with out := Function.update st.out fd (st.out fd ++ bytes.take count) }
  | WriteResult.sigpipe => none

/-- Lines 71-86 of `main`: `accepted` is the result of `accept` (`none` for a
negative return), `ctl_ok` tells whether `EPOLL_CTL_ADD` succeeds. -/
def main_accept (st : Reactor) (accepted : Option Nat) (ctl_ok : Bool) : Reactor :=
  match accepted with
  | none => st
  | some client_fd =>
    let st1 := { st with opened := insert client_fd st.opened }
    if ctl_ok then { st1 with registered := insert client_fd st1.registered }
    else close st1 client_fd

/-- Lines 88-147 of `main`: service of a ready client descriptor.  `fd_read` is
the return value of `read`, `buffer` the memory at `buffer` afterwards, `wr`
what becomes of the bytes the step hands to `write`.  The result is the next
state, or `none` when the process does not survive the step: the handler runs
into undefined behaviour, or a `write` raises SIGPIPE. -/
def main_service (path : List Char) (fs : FileSystem) (st : Reactor) (client_fd : Nat)
    (fd_read : Int) (buffer : List Char) (wr : WriteResult) : Option Reactor :=
  if fd_read = 0 then some (epoll_ctl_del (close st client_fd) client_fd)
  else if fd_read < 0 then
    (handle_error 500).bind (fun bytes => write st client_fd bytes wr)
  else (main_request path fs buffer).bind (fun bytes => write st client_fd bytes wr)

/-- Lines 69-149 of `main`: the body of the `for` loop for one ready entry
`fd`, given what the system calls of that iteration return. -/
def main_event (path : List Char) (fs : FileSystem) (st : Reactor) (fd : Nat)
    (accepted : Option Nat) (ctl_ok : Bool) (fd_read : Int) (buffer : List Char)
    (wr : WriteResult) : Option Reactor :=
  if fd = st.server_fd then some (main_accept st accepted ctl_ok)
  else main_service path fs st fd fd_read buffer wr

/-! ## Example filesystems and reactor -/

/-- A filesystem with no entry at all. -/
def fs_empty : FileSystem := ⟨fun _ => none, fun _ => none⟩

/-- A filesystem whose only entry is the file `name` with content `data`. -/
def fs_single (name data : List Char) : FileSystem :=
  ⟨fun p => if p = name then some data.length else none,
   fun p => if p = name then some data else none⟩

/-- A reactor with listening socket 3 and the clients 5 and 6. -/
def reactor_example : Reactor := ⟨3, {3, 5, 6}, {3, 5, 6}, fun _ => []⟩

/-! ## Vocabulary for request lines -/

/-- A line terminator: CR or LF. -/
def isLineEnd (c : Char) : Bool := c == '\r' || c == '\n'

/-- The request line of a buffer: its bytes before the first CR or LF. -/
def firstLine (buffer : List Char) : List Char :=
  buffer.takeWhile (fun c => !isLineEnd c)

/-- Drop the leading spaces of a line. -/
def skipSpaces (l : List Char) : List Char := l.dropWhile (fun c => c == ' ')

/-- The first space-delimited word of a line. -/
def lineWord (l : List Char) : List Char := (skipSpaces l).takeWhile (fun c => c != ' ')

/-- What follows the first space-delimited word of a line. -/
def afterWord (l : List Char) : List Char := (skipSpaces l).dropWhile (fun c => c != ' ')

/-- The method token of a request line: its first word. -/
def lineMethod (line : List Char) : List Char := lineWord line

/-- The target token of a request line: its second word. -/
def lineTarget (line : List Char) : List Char := lineWord (afterWord line)

/-- The protocol token of a request line: what remains of the line after the
second word and the spaces that follow it. -/
def lineProtocol (line : List Char) : List Char := skipSpaces (afterWord (afterWord line))

/-- A request line lacks a method, a target or a protocol token. -/
def lacksToken (line : List Char) : Prop :=
  lineMethod line = [] ∨ lineTarget line = [] ∨ lineProtocol line = []

instance (line : List Char) : Decidable (lacksToken line) := by
  unfold lacksToken; infer_instance

/-! # Theorems -/

/-! ## Tokenising: `strtok` on a request -/

/-- A non-empty token free of delimiters, followed by a delimiter, is returned
whole and the scan resumes behind that delimiter. -/
theorem strtok_token (tok r delim : List Char) (d : Char) (hne : tok ≠ [])
    (htok : ∀ c ∈ tok, c ∉ delim) (hd : d ∈ delim) :
    strtok (tok ++ d :: r) delim = (some tok, r) := by
  cases tok with
  | nil => exact absurd rfl hne
  | cons x xs =>
    have hx : x ∉ delim := htok x (by simp)
    have h1 : ((x :: xs) ++ d :: r).dropWhile (fun c => decide (c ∈ delim))
        = (x :: xs) ++ d :: r := by
      simp [List.dropWhile_cons, hx]
    have h2 : ((x :: xs) ++ d :: r).takeWhile (fun c => !decide (c ∈ delim)) = x :: xs := by
      rw [List.takeWhile_append_of_pos (by intro a ha; simpa using htok a ha)]
      simp [hd]
    have h3 : ((x :: xs) ++ d :: r).dropWhile (fun c => !decide (c ∈ delim)) = d :: r := by
      rw [List.dropWhile_append_of_pos (by intro a ha; simpa using htok a ha)]
      simp [hd]
    unfold strtok
    simp only [h1, h2, h3]
    simp

theorem cstr_append_of_no_nul (a b : List Char) (h : ∀ c ∈ a, c ≠ NUL) :
    cstr (a ++ b) = a ++ cstr b := by
  unfold cstr
  rw [List.takeWhile_append_of_pos (by intro c hc; simpa using h c hc)]

/-- The tokens of `"GET T HTTP/1.1\r\n"` followed by any bytes. -/
theorem main_tokens_request (T rest : List Char) (hne : T ≠ [])
    (hT : ∀ c ∈ T, c ≠ ' ' ∧ c ≠ '\r' ∧ c ≠ '\n' ∧ c ≠ NUL) :
    main_tokens ("GET ".toList ++ T ++ " HTTP/1.1\r\n".toList ++ rest)
      = (some "GET".toList, some T, some "HTTP/1.1".toList) := by
  have hnul : ∀ c ∈ "GET ".toList ++ T ++ " HTTP/1.1\r\n".toList, c ≠ NUL := by
    intro c hc
    simp only [List.mem_append] at hc
    rcases hc with (hc | hc) | hc
    · revert c; decide
    · exact (hT c hc).2.2.2
    · revert c; decide
  have hs : cstr ("GET ".toList ++ T ++ " HTTP/1.1\r\n".toList ++ rest)
      = "GET".toList ++ ' ' :: (T ++ ' ' :: ("HTTP/1.1".toList ++ '\r' :: ('\n' :: cstr rest))) := by
    rw [cstr_append_of_no_nul _ _ hnul]; simp
  have t1 := strtok_token "GET".toList
    (T ++ ' ' :: ("HTTP/1.1".toList ++ '\r' :: ('\n' :: cstr rest))) " ".toList ' '
    (by decide) (by decide) (by decide)
  have t2 := strtok_token T ("HTTP/1.1".toList ++ '\r' :: ('\n' :: cstr rest)) " ".toList ' '
    hne (by intro c hc; simpa using (hT c hc).1) (by decide)
  have t3 := strtok_token "HTTP/1.1".toList ('\n' :: cstr rest) "\r\n".toList '\r'
    (by decide) (by decide) (by decide)
  unfold main_tokens strtok3
  rw [hs, t1]
  simp only []
  rw [t2]
  simp only []
  rw [t3]

theorem handle_error_400 : handle_error 400 = some
    "HTTP/1.1 400 Bad Request\nContent-Length: 24\nContent-Type: text/html\n\n<h1>400 Bad Request</h1>".toList := by
  decide

theorem handle_error_404 : handle_error 404 = some
    "HTTP/1.1 404 Not Found\nContent-Length: 22\nContent-Type: text/html\n\n<h1>404 Not Found</h1>".toList := by
  decide

theorem handle_error_500 : handle_error 500 = some
    "HTTP/1.1 500 Internal Server Error\nContent-Length: 34\nContent-Type: text/html\n\n<h1>500 Internal Server Error</h1>".toList := by
  decide

/-- With more fuel than the file has bytes, the copy loop ends and has written
the file, byte for byte. -/
theorem copy_loop_fuel (fuel : Nat) : ∀ file : List Char, file.length < fuel →
    copy_loop fuel file = some file := by
  induction fuel with
  | zero => intro file h; omega
  | succ n ih =>
    intro file h
    unfold copy_loop
    by_cases hc : 0 < (file.take BUFFER_SIZE).length
    · have hlen : (file.drop BUFFER_SIZE).length < n := by
        have : 0 < file.length := by
          rcases file with _ | ⟨a, l⟩
          · simp at hc
          · simp
        simp only [List.length_drop, BUFFER_SIZE]; omega
      simp only [hc, if_true, ih _ hlen, Option.map_some', List.take_append_drop]
    · have : file = [] := by
        rcases file with _ | ⟨a, l⟩
        · rfl
        · exfalso; apply hc; simp [BUFFER_SIZE]
      simp [this]

theorem get_header_200 (n : Int) (t : List Char) :
    get_header 200 n t = some ("HTTP/1.1 200 OK\nContent-Length: ".toList ++ (toString n).toList
      ++ "\nContent-Type: ".toList ++ t ++ "\n\n".toList) := by
  have h : status_text 200 = some "OK".toList := by decide
  have hd : printf_d 200 = "200".toList := by decide
  unfold get_header
  rw [h]
  simp only [hd]
  simp [printf_d]

/-! ## `strtok` on a line followed by more bytes -/

theorem takeWhile_append_of_dropWhile_ne_nil (p : Char → Bool) (xs ys : List Char)
    (h : xs.dropWhile p ≠ []) : (xs ++ ys).takeWhile p = xs.takeWhile p := by
  induction xs with
  | nil => simp at h
  | cons x l ih =>
    by_cases hx : p x = true
    · have h2 : l.dropWhile p ≠ [] := by simpa [List.dropWhile_cons, hx] using h
      simp [List.takeWhile_cons, hx, ih h2]
    · simp [List.takeWhile_cons, hx]

theorem dropWhile_append_of_dropWhile_ne_nil (p : Char → Bool) (xs ys : List Char)
    (h : xs.dropWhile p ≠ []) : (xs ++ ys).dropWhile p = xs.dropWhile p ++ ys := by
  induction xs with
  | nil => simp at h
  | cons x l ih =>
    by_cases hx : p x = true
    · have h2 : l.dropWhile p ≠ [] := by simpa [List.dropWhile_cons, hx] using h
      simp [List.dropWhile_cons, hx, ih h2]
    · simp [List.dropWhile_cons, hx]

theorem dropWhile_head_false (p : Char → Bool) (xs : List Char) (a : Char) (l : List Char)
    (h : xs.dropWhile p = a :: l) : p a = false := by
  induction xs with
  | nil => simp at h
  | cons x t ih =>
    by_cases hx : p x = true
    · exact ih (by simpa [List.dropWhile_cons, hx] using h)
    · simp only [List.dropWhile_cons, hx] at h
      simp only [Bool.false_eq_true, if_false, List.cons.injEq] at h
      rw [← h.1]; simpa using hx

theorem dropWhile_of_head_false (p : Char → Bool) (xs : List Char)
    (h : ∀ a l, xs = a :: l → p a = false) : xs.dropWhile p = xs := by
  cases xs with
  | nil => rfl
  | cons a l => simp [List.dropWhile_cons, h a l rfl]

theorem strtok_append_all (X t delim : List Char)
    (hX : X.dropWhile (fun c => decide (c ∈ delim)) = [])
    (ht : ∀ c ∈ t, c ∉ delim) :
    strtok (X ++ t) delim = if t = [] then (none, []) else (some t, []) := by
  have h1 : (X ++ t).dropWhile (fun c => decide (c ∈ delim)) = t := by
    rw [List.dropWhile_append_of_pos (List.dropWhile_eq_nil_iff.1 hX)]
    apply dropWhile_of_head_false
    intro a l hal
    simpa using ht a (by simp [hal])
  have h2 : t.takeWhile (fun c => !decide (c ∈ delim)) = t :=
    List.takeWhile_eq_self_iff.2 (by intro c hc; simpa using ht c hc)
  have h3 : t.dropWhile (fun c => !decide (c ∈ delim)) = [] :=
    List.dropWhile_eq_nil_iff.2 (by intro c hc; simpa using ht c hc)
  unfold strtok
  simp only [h1, h2, h3]
  cases t <;> simp

theorem strtok_append_open (X t delim : List Char)
    (h1 : X.dropWhile (fun c => decide (c ∈ delim)) ≠ [])
    (h2 : (X.dropWhile (fun c => decide (c ∈ delim))).dropWhile
      (fun c => !decide (c ∈ delim)) = [])
    (ht : ∀ c ∈ t, c ∉ delim) :
    strtok (X ++ t) delim = (some (X.dropWhile (fun c => decide (c ∈ delim)) ++ t), []) := by
  have e1 := dropWhile_append_of_dropWhile_ne_nil _ X t h1
  have hall := List.dropWhile_eq_nil_iff.1 h2
  have e2 : (X.dropWhile (fun c => decide (c ∈ delim)) ++ t).takeWhile
      (fun c => !decide (c ∈ delim)) = X.dropWhile (fun c => decide (c ∈ delim)) ++ t := by
    apply List.takeWhile_eq_self_iff.2
    intro c hc
    rcases List.mem_append.1 hc with hc | hc
    · exact hall c hc
    · simpa using ht c hc
  have e3 : (X.dropWhile (fun c => decide (c ∈ delim)) ++ t).dropWhile
      (fun c => !decide (c ∈ delim)) = [] := by
    apply List.dropWhile_eq_nil_iff.2
    intro c hc
    rcases List.mem_append.1 hc with hc | hc
    · exact hall c hc
    · simpa using ht c hc
  unfold strtok
  simp only [e1, e2, e3]
  simp [h1]

theorem strtok_append_closed (X y delim : List Char)
    (h2 : (X.dropWhile (fun c => decide (c ∈ delim))).dropWhile
      (fun c => !decide (c ∈ delim)) ≠ []) :
    strtok (X ++ y) delim =
      (some ((X.dropWhile (fun c => decide (c ∈ delim))).takeWhile
        (fun c => !decide (c ∈ delim))),
       ((X.dropWhile (fun c => decide (c ∈ delim))).dropWhile
        (fun c => !decide (c ∈ delim))).tail ++ y) := by
  have h1 : X.dropWhile (fun c => decide (c ∈ delim)) ≠ [] := by
    intro h; rw [h] at h2; simp at h2
  have e1 := dropWhile_append_of_dropWhile_ne_nil _ X y h1
  have e2 := takeWhile_append_of_dropWhile_ne_nil _ _ y h2
  have e3 := dropWhile_append_of_dropWhile_ne_nil _ _ y h2
  unfold strtok
  simp only [e1, e2, e3]
  have : ∀ (l : List Char), l ≠ [] → (l ++ y).tail = l.tail ++ y := by
    intro l hl; cases l with
    | nil => exact absurd rfl hl
    | cons a l => rfl
  simp [h1, this _ h2]

theorem sp_pred : (fun c : Char => decide (c ∈ " ".toList)) = (fun c => c == ' ') := by
  funext c; by_cases h : c = ' ' <;> simp [h]

theorem nsp_pred : (fun c : Char => !decide (c ∈ " ".toList)) = (fun c => c != ' ') := by
  funext c; by_cases h : c = ' ' <;> simp [h]

theorem strtok_sp_all (X t : List Char) (h : skipSpaces X = []) (ht : ∀ c ∈ t, c ≠ ' ') :
    strtok (X ++ t) " ".toList = if t = [] then (none, []) else (some t, []) := by
  apply strtok_append_all
  · rw [sp_pred]; exact h
  · intro c hc; simpa using ht c hc

theorem strtok_sp_open (X t : List Char) (h1 : skipSpaces X ≠ []) (h2 : afterWord X = [])
    (ht : ∀ c ∈ t, c ≠ ' ') :
    strtok (X ++ t) " ".toList = (some (skipSpaces X ++ t), []) := by
  have := strtok_append_open X t " ".toList (by rw [sp_pred]; exact h1)
    (by rw [sp_pred, nsp_pred]; exact h2) (by intro c hc; simpa using ht c hc)
  rw [sp_pred] at this
  exact this

theorem strtok_sp_closed (X y : List Char) (h : afterWord X ≠ []) :
    strtok (X ++ y) " ".toList = (some (lineWord X), (afterWord X).tail ++ y) := by
  have := strtok_append_closed X y " ".toList (by rw [sp_pred, nsp_pred]; exact h)
  rw [sp_pred, nsp_pred] at this
  exact this

theorem skipSpaces_afterWord_tail (X : List Char) :
    skipSpaces (afterWord X).tail = skipSpaces (afterWord X) := by
  cases h : afterWord X with
  | nil => rfl
  | cons a l =>
    have ha := dropWhile_head_false _ _ a l h
    simp only [List.tail_cons, skipSpaces]
    have : (a == ' ') = true := by simpa [bne] using ha
    simp [List.dropWhile_cons, this]

theorem lineWord_ne_nil (X : List Char) (h : skipSpaces X ≠ []) : lineWord X ≠ [] := by
  unfold lineWord
  cases hs : skipSpaces X with
  | nil => exact absurd hs h
  | cons a l =>
    have ha := dropWhile_head_false _ _ a l hs
    have : (a != ' ') = true := by simpa [bne] using ha
    simp [List.takeWhile_cons, this]

theorem mem_afterWord (X : List Char) (c : Char) (h : c ∈ afterWord X) : c ∈ X :=
  (List.dropWhile_suffix _).subset ((List.dropWhile_suffix _).subset h)

theorem mem_skipSpaces (X : List Char) (c : Char) (h : c ∈ skipSpaces X) : c ∈ X :=
  (List.dropWhile_suffix _).subset h

theorem strtok_nil (delim : List Char) : strtok [] delim = (none, []) := by
  simp [strtok]

theorem isLineEnd_iff (c : Char) : isLineEnd c = true ↔ c ∈ "\r\n".toList := by
  simp [isLineEnd]

theorem strtok_lineEnds (t : List Char) (ht : ∀ c ∈ t, isLineEnd c = true) :
    strtok t "\r\n".toList = (none, []) := by
  have : t.dropWhile (fun c => decide (c ∈ "\r\n".toList)) = [] := by
    apply List.dropWhile_eq_nil_iff.2
    intro c hc
    exact decide_eq_true ((isLineEnd_iff c).1 (ht c hc))
  simp only [strtok, this]
  rfl

theorem strtok_protocol (P y : List Char) (hne : P ≠ []) (hP : ∀ c ∈ P, isLineEnd c = false)
    (hy : ∀ a l, y = a :: l → isLineEnd a = true) :
    (strtok (P ++ y) "\r\n".toList).1 = some P := by
  have hP2 : ∀ c ∈ P, c ∉ "\r\n".toList := by
    intro c hc hmem
    have := (isLineEnd_iff c).2 hmem
    rw [hP c hc] at this
    exact absurd this (by decide)
  have h1 : (P ++ y).dropWhile (fun c => decide (c ∈ "\r\n".toList)) = P ++ y := by
    apply dropWhile_of_head_false
    intro a l hal
    cases P with
    | nil => exact absurd rfl hne
    | cons p ps =>
      simp only [List.cons_append, List.cons.injEq] at hal
      have := hP2 p (by simp)
      rw [← hal.1]
      simpa using this
  have h2 : (P ++ y).takeWhile (fun c => !decide (c ∈ "\r\n".toList)) = P := by
    rw [List.takeWhile_append_of_pos (by intro c hc; simpa using hP2 c hc)]
    cases y with
    | nil => simp
    | cons a l =>
      have hdec : decide (a ∈ "\r\n".toList) = true :=
        decide_eq_true ((isLineEnd_iff a).1 (hy a l rfl))
      simp only [List.takeWhile_cons, hdec]
      simp
  unfold strtok
  simp only [h1, h2]
  cases P with
  | nil => exact absurd rfl hne
  | cons p ps => simp

/-- With a complete request line `L`, the three tokens of `L ++ y` are the
method, the target and the rest of `L`, whatever follows the line. -/
theorem strtok3_complete (L y : List Char) (hL : ∀ c ∈ L, isLineEnd c = false)
    (hy : ∀ a l, y = a :: l → isLineEnd a = true) (h : ¬ lacksToken L) :
    strtok3 (L ++ y) =
      (some (lineMethod L), some (lineTarget L), some (afterWord (afterWord L)).tail) := by
  unfold lacksToken at h
  push_neg at h
  obtain ⟨_, _, hp⟩ := h
  have hA2 : afterWord (afterWord L) ≠ [] := by
    intro e; apply hp; simp [lineProtocol, e, skipSpaces]
  have hA1 : afterWord L ≠ [] := by
    intro e; apply hA2; rw [e]; rfl
  have e2 : afterWord (afterWord L).tail = afterWord (afterWord L) :=
    congrArg (List.dropWhile (fun c => c != ' ')) (skipSpaces_afterWord_tail L)
  have e1 : lineWord (afterWord L).tail = lineTarget L :=
    congrArg (List.takeWhile (fun c => c != ' ')) (skipSpaces_afterWord_tail L)
  have hA2' : afterWord (afterWord L).tail ≠ [] := by
    rw [e2]; exact hA2
  have hPne : (afterWord (afterWord L)).tail ≠ [] := by
    intro e
    apply hp
    unfold lineProtocol
    rw [← skipSpaces_afterWord_tail, e]; rfl
  have hPL : ∀ c ∈ (afterWord (afterWord L)).tail, isLineEnd c = false := by
    intro c hc
    exact hL c (mem_afterWord _ _ (mem_afterWord _ _ (List.mem_of_mem_tail hc)))
  unfold strtok3
  rw [strtok_sp_closed L y hA1]
  simp only []
  rw [strtok_sp_closed _ y hA2']
  simp only []
  rw [e1, e2, strtok_protocol _ y hPne hPL hy]
  rfl

/-! ## Content type -/

theorem strrchr_eq_none (s : List Char) (c : Char) (h : c ∉ s) : strrchr s c = none := by
  induction s with
  | nil => rfl
  | cons x xs ih =>
    have hx : ¬ x = c := fun e => h (by simp [e])
    have hxs : c ∉ xs := fun e => h (by simp [e])
    simp [strrchr, ih hxs, hx]

/-- The result of `strrchr` is the suffix at the last occurrence. -/
theorem strrchr_last (pre ext : List Char) (c : Char) (h : c ∉ ext) :
    strrchr (pre ++ c :: ext) c = some (c :: ext) := by
  induction pre with
  | nil => simp [strrchr, strrchr_eq_none ext c h]
  | cons x xs ih => simp [strrchr, ih]

theorem exists_last_split (s : List Char) (c : Char) (h : c ∈ s) :
    ∃ pre ext, s = pre ++ c :: ext ∧ c ∉ ext := by
  induction s with
  | nil => simp at h
  | cons x xs ih =>
    by_cases hxs : c ∈ xs
    · obtain ⟨pre, ext, he, hn⟩ := ih hxs
      exact ⟨x :: pre, ext, by simp [he], hn⟩
    · have hx : c = x := by
        rcases List.mem_cons.1 h with e | e
        · exact e
        · exact absurd e hxs
      exact ⟨[], xs, by simp [hx], hxs⟩

theorem get_content_type_of_split (pre ext : List Char) (h : '.' ∉ ext) :
    get_content_type (pre ++ '.' :: ext) = some (
      if ext = "html".toList then "text/html".toList
      else if ext = "jpg".toList ∨ ext = "jpeg".toList then "image/jpeg".toList
      else if ext = "png".toList then "image/png".toList
      else if ext = "css".toList then "text/css".toList
      else if ext = "js".toList then "text/javascript".toList
      else "text/plain".toList) := by
  unfold get_content_type
  rw [strrchr_last pre ext '.' h]
  simp only [String.toList, List.cons.injEq, true_and]
  split_ifs <;> rfl

theorem get_content_type_isSome (s : List Char) (h : '.' ∈ s) :
    ∃ ty, get_content_type s = some ty := by
  obtain ⟨pre, ext, he, hn⟩ := exists_last_split s '.' h
  exact ⟨_, he ▸ get_content_type_of_split pre ext hn⟩

/-- Without a `'.'` in the path `strrchr` returns `NULL` and `get_content_type`
has no defined result. -/
theorem get_content_type_eq_none (path : List Char) (h : '.' ∉ path) :
    get_content_type path = none := by
  unfold get_content_type
  rw [strrchr_eq_none path '.' h]

/-- Claim C6.  A path that contains a `'.'` splits as `pre ++ '.' :: ext` with no
`'.'` in `ext`, and for every such split `get_content_type` returns a value
fixed by `ext` alone: `html` gives `text/html`, `jpg` and `jpeg` give
`image/jpeg`, `png` gives `image/png`, `css` gives `text/css`, `js` gives
`text/javascript`, and every other `ext` (other case, or one holding a `'/'`)
gives `text/plain`. -/
theorem get_content_type_by_suffix (path : List Char) (h : '.' ∈ path) :
    (∃ pre ext, path = pre ++ '.' :: ext ∧ '.' ∉ ext) ∧
    ∀ pre ext, path = pre ++ '.' :: ext → '.' ∉ ext →
      get_content_type path = some (
        if ext = "html".toList then "text/html".toList
        else if ext = "jpg".toList ∨ ext = "jpeg".toList then "image/jpeg".toList
        else if ext = "png".toList then "image/png".toList
        else if ext = "css".toList then "text/css".toList
        else if ext = "js".toList then "text/javascript".toList
        else "text/plain".toList) :=
  ⟨exists_last_split path '.' h, fun pre ext he hn => he ▸ get_content_type_of_split pre ext hn⟩

/-- Witness of C6 at `/srv/v1.2/a.HTML`: upper case falls to `text/plain`. -/
theorem get_content_type_by_suffix_witness :
    '.' ∈ "/srv/v1.2/a.HTML".toList ∧
    get_content_type "/srv/v1.2/a.HTML".toList = some "text/plain".toList :=
  ⟨by decide,
   (get_content_type_by_suffix "/srv/v1.2/a.HTML".toList (by decide)).2
     "/srv/v1.2/a".toList "HTML".toList (by decide) (by decide)⟩

/-- Claim C1, amended.  For every root, filesystem view and non-empty target `T`
free of space, CR, LF and NUL whose resolved path contains a `'.'` and names a
file that `stat` reports with size `F.length` and `open` opens with content `F`,
the bytes written for `"GET T HTTP/1.1\r\n"` (whatever bytes `rest` follow in
the buffer) are the 200 header with `Content-Length` the length of `F` and the
content type of the resolved path, followed by exactly `F`: the chunked copy
loop reproduces the file. -/
theorem main_request_serves_file (root : List Char) (fs : FileSystem) (T F rest : List Char)
    (hne : T ≠ []) (hT : ∀ c ∈ T, c ≠ ' ' ∧ c ≠ '\r' ∧ c ≠ '\n' ∧ c ≠ NUL)
    (hdot : '.' ∈ main_target root T)
    (hstat : fs.stat (main_target root T) = some F.length)
    (hopen : fs.open_ (main_target root T) = some F) :
    ∃ ty, get_content_type (main_target root T) = some ty ∧
      main_request root fs ("GET ".toList ++ T ++ " HTTP/1.1\r\n".toList ++ rest)
        = some ("HTTP/1.1 200 OK\nContent-Length: ".toList ++ (toString F.length).toList
            ++ "\nContent-Type: ".toList ++ ty ++ "\n\n".toList ++ F) := by
  obtain ⟨ty, hty⟩ := get_content_type_isSome _ hdot
  refine ⟨ty, hty, ?_⟩
  unfold main_request
  rw [main_tokens_request T rest hne hT]
  simp only [ne_eq, not_true_eq_false, or_self, if_false, hstat, hopen, hty, get_header_200,
    copy_loop_fuel (F.length + 1) F (Nat.lt_succ_self _), Option.map_some']
  rfl

/-- Witness of C1 (amended) at root `/srv`, target `/`, file `/srv/index.html`. -/
theorem main_request_serves_file_witness :
    main_request "/srv".toList (fs_single "/srv/index.html".toList "hello".toList)
        "GET / HTTP/1.1\r\nHost: x\r\n\r\n".toList
      = some "HTTP/1.1 200 OK\nContent-Length: 5\nContent-Type: text/html\n\nhello".toList := by
  obtain ⟨ty, hty, h⟩ := main_request_serves_file "/srv".toList
    (fs_single "/srv/index.html".toList "hello".toList) "/".toList "hello".toList
    "Host: x\r\n\r\n".toList (by decide) (by decide) (by decide) (by decide) (by decide)
  have hty2 : ty = "text/html".toList := by
    have : get_content_type (main_target "/srv".toList "/".toList) = some "text/html".toList := by
      decide
    rw [this] at hty
    exact (Option.some.inj hty).symm
  subst hty2
  exact h

/-! ## Responses of the request handler -/

/-- Counterexample to C1 as stated.  The empty target has no space, CR or LF, and
with root `/srv/a.txt` its resolved path is the existing file `/srv/a.txt`;
yet the request `"GET  HTTP/1.1\r\n"` is answered with the 400 response, not
with a 200 response carrying the file: `strtok` finds no third token.  And for
the existing file `/srv/README`, whose path has no `'.'`, nothing is written
at all. -/
theorem serves_file_not_universal :
    ((∀ c ∈ ([] : List Char), c ≠ ' ' ∧ c ≠ '\r' ∧ c ≠ '\n') ∧
    "GET ".toList ++ [] ++ " HTTP/1.1\r\n".toList = "GET  HTTP/1.1\r\n".toList ∧
    (fs_single "/srv/a.txt".toList "hi".toList).stat (main_target "/srv/a.txt".toList [])
      = some "hi".toList.length ∧
    (fs_single "/srv/a.txt".toList "hi".toList).open_ (main_target "/srv/a.txt".toList [])
      = some "hi".toList ∧
    main_request "/srv/a.txt".toList (fs_single "/srv/a.txt".toList "hi".toList)
        ("GET ".toList ++ [] ++ " HTTP/1.1\r\n".toList)
      = some "HTTP/1.1 400 Bad Request\nContent-Length: 24\nContent-Type: text/html\n\n<h1>400 Bad Request</h1>".toList ∧
    ¬ ∃ ty, main_request "/srv/a.txt".toList (fs_single "/srv/a.txt".toList "hi".toList)
        ("GET ".toList ++ [] ++ " HTTP/1.1\r\n".toList)
      = some ("HTTP/1.1 200 OK\nContent-Length: ".toList ++ (toString "hi".toList.length).toList
            ++ "\nContent-Type: ".toList ++ ty ++ "\n\n".toList ++ "hi".toList)) ∧
    ((∀ c ∈ "/README".toList, c ≠ ' ' ∧ c ≠ '\r' ∧ c ≠ '\n') ∧
    (fs_single "/srv/README".toList "hi".toList).stat (main_target "/srv".toList "/README".toList)
      = some "hi".toList.length ∧
    (fs_single "/srv/README".toList "hi".toList).open_ (main_target "/srv".toList "/README".toList)
      = some "hi".toList ∧
    main_request "/srv".toList (fs_single "/srv/README".toList "hi".toList)
        ("GET ".toList ++ "/README".toList ++ " HTTP/1.1\r\n".toList) = none) := by
  have h : main_request "/srv/a.txt".toList (fs_single "/srv/a.txt".toList "hi".toList)
        ("GET ".toList ++ [] ++ " HTTP/1.1\r\n".toList)
      = some "HTTP/1.1 400 Bad Request\nContent-Length: 24\nContent-Type: text/html\n\n<h1>400 Bad Request</h1>".toList := by
    decide
  refine ⟨⟨by decide, by decide, by decide, by decide, h, ?_⟩, by decide⟩
  rintro ⟨ty, hty⟩
  rw [h] at hty
  simp [String.toList] at hty

/-- Claim C7 fails on the code.  On `README` and on `/srv/README`, paths without
`'.'`, `get_content_type` has no defined result (`strrchr` returns `NULL`,
which is handed to `strcmp`), and the request for the existing file
`/srv/README` produces no response. -/
theorem get_content_type_without_dot :
    get_content_type "README".toList = none ∧
    get_content_type "/srv/README".toList = none ∧
    (fs_single "/srv/README".toList "hi".toList).stat "/srv/README".toList = some 2 ∧
    (fs_single "/srv/README".toList "hi".toList).open_ "/srv/README".toList = some "hi".toList ∧
    main_request "/srv".toList (fs_single "/srv/README".toList "hi".toList)
      "GET /README HTTP/1.1\r\n".toList = none := by
  decide

/-- Claim C5.  For every root, filesystem view and well-formed request
`"GET T HTTP/1.1\r\n"` (`T` non-empty, free of space, CR, LF and NUL; any bytes
`rest` may follow) whose resolved path `stat` does not find, the bytes written
are exactly the 404 response, and its `Content-Length`, 22, is the length of
the canned body. -/
theorem main_request_not_found (root : List Char) (fs : FileSystem) (T rest : List Char)
    (hne : T ≠ []) (hT : ∀ c ∈ T, c ≠ ' ' ∧ c ≠ '\r' ∧ c ≠ '\n' ∧ c ≠ NUL)
    (hstat : fs.stat (main_target root T) = none) :
    main_request root fs ("GET ".toList ++ T ++ " HTTP/1.1\r\n".toList ++ rest)
      = some "HTTP/1.1 404 Not Found\nContent-Length: 22\nContent-Type: text/html\n\n<h1>404 Not Found</h1>".toList
    ∧ error_content 404 = some "<h1>404 Not Found</h1>".toList
    ∧ "<h1>404 Not Found</h1>".toList.length = 22 := by
  refine ⟨?_, by decide, by decide⟩
  unfold main_request
  rw [main_tokens_request T rest hne hT]
  simp only [ne_eq, not_true_eq_false, or_self, if_false, hstat]
  exact handle_error_404

/-- Witness of C5 at root `/srv`, target `/missing.png`, empty filesystem. -/
theorem main_request_not_found_witness :
    main_request "/srv".toList fs_empty "GET /missing.png HTTP/1.1\r\n".toList
      = some "HTTP/1.1 404 Not Found\nContent-Length: 22\nContent-Type: text/html\n\n<h1>404 Not Found</h1>".toList :=
  (main_request_not_found "/srv".toList fs_empty "/missing.png".toList [] (by decide) (by decide)
    (by decide)).1

/-- Claim C2.  For every root and filesystem view the bytes written for
`"GET / HTTP/1.1\r\n"` equal those written for `"GET /index.html HTTP/1.1\r\n"`
(whatever bytes follow either request in the buffer; take `rest1 = rest2 = []`
for the bare requests), and the resolved path is `root ++ "/index.html"` for
the target `/` and `root ++ T` for every other target `T`. -/
theorem root_is_index (root : List Char) (fs : FileSystem) (rest1 rest2 : List Char) :
    main_request root fs ("GET / HTTP/1.1\r\n".toList ++ rest1)
      = main_request root fs ("GET /index.html HTTP/1.1\r\n".toList ++ rest2)
    ∧ ∀ T, main_target root T = root ++ (if T = "/".toList then "/index.html".toList else T) := by
  constructor
  · have e1 : "GET / HTTP/1.1\r\n".toList ++ rest1
        = "GET ".toList ++ "/".toList ++ " HTTP/1.1\r\n".toList ++ rest1 := rfl
    have e2 : "GET /index.html HTTP/1.1\r\n".toList ++ rest2
        = "GET ".toList ++ "/index.html".toList ++ " HTTP/1.1\r\n".toList ++ rest2 := rfl
    have t1 := main_tokens_request "/".toList rest1 (by decide) (by decide)
    have t2 := main_tokens_request "/index.html".toList rest2 (by decide) (by decide)
    have m1 : main_target root "/".toList = root ++ "/index.html".toList := by
      simp [main_target]
    have m2 : main_target root "/index.html".toList = root ++ "/index.html".toList := by
      have : "/index.html".toList ≠ "/".toList := by decide
      simp [main_target, this]
    unfold main_request
    rw [e1, e2, t1, t2]
    simp only [m1, m2]
  · intro T
    unfold main_target
    split_ifs <;> rfl

/-- Claim C8.  For the status codes 200, 400, 404 and 500, every content length
`n` and every content type `t`, `get_header` yields
`"HTTP/1.1 <code> <reason>\nContent-Length: <n>\nContent-Type: <t>\n\n"` with the
reasons OK, Bad Request, Not Found and Internal Server Error, `n` in decimal,
every line ended by a bare LF and one empty line at the end. -/
theorem get_header_format (n : Int) (t : List Char) :
    get_header 200 n t = some ("HTTP/1.1 200 OK\nContent-Length: ".toList ++ (toString n).toList
      ++ "\nContent-Type: ".toList ++ t ++ "\n\n".toList) ∧
    get_header 400 n t = some ("HTTP/1.1 400 Bad Request\nContent-Length: ".toList
      ++ (toString n).toList ++ "\nContent-Type: ".toList ++ t ++ "\n\n".toList) ∧
    get_header 404 n t = some ("HTTP/1.1 404 Not Found\nContent-Length: ".toList
      ++ (toString n).toList ++ "\nContent-Type: ".toList ++ t ++ "\n\n".toList) ∧
    get_header 500 n t = some ("HTTP/1.1 500 Internal Server Error\nContent-Length: ".toList
      ++ (toString n).toList ++ "\nContent-Type: ".toList ++ t ++ "\n\n".toList) := by
  have h2 : status_text 200 = some "OK".toList := by decide
  have d2 : printf_d 200 = "200".toList := by decide
  have h4 : status_text 400 = some "Bad Request".toList := by decide
  have d4 : printf_d 400 = "400".toList := by decide
  have h44 : status_text 404 = some "Not Found".toList := by decide
  have d44 : printf_d 404 = "404".toList := by decide
  have h5 : status_text 500 = some "Internal Server Error".toList := by decide
  have d5 : printf_d 500 = "500".toList := by decide
  refine ⟨?_, ?_, ?_, ?_⟩
  · unfold get_header; rw [h2]; simp only [d2]; simp [printf_d]
  · unfold get_header; rw [h4]; simp only [d4]; simp [printf_d]
  · unfold get_header; rw [h44]; simp only [d44]; simp [printf_d]
  · unfold get_header; rw [h5]; simp only [d5]; simp [printf_d]

/-- Claim C4.  For every buffer that tokenises into `method`, `uri` and
`protocol`: if `method` is not exactly `GET` or `protocol` is not exactly
`HTTP/1.1`, the bytes written are the 400 response for every filesystem view
(the filesystem is not consulted); and if `method` is `GET` and `protocol` is
`HTTP/1.1`, whatever is written does not start with `HTTP/1.1 400`. -/
theorem main_request_method_protocol (path buffer method uri protocol : List Char)
    (htok : main_tokens buffer = (some method, some uri, some protocol)) :
    ((method ≠ "GET".toList ∨ protocol ≠ "HTTP/1.1".toList) →
      ∀ fs, main_request path fs buffer = some
        "HTTP/1.1 400 Bad Request\nContent-Length: 24\nContent-Type: text/html\n\n<h1>400 Bad Request</h1>".toList) ∧
    ((method = "GET".toList ∧ protocol = "HTTP/1.1".toList) →
      ∀ fs out, main_request path fs buffer = some out → ¬ "HTTP/1.1 400".toList <+: out) := by
  constructor
  · intro h fs
    unfold main_request
    rw [htok]
    simp only [h, if_true]
    exact handle_error_400
  · rintro ⟨hm, hp⟩ fs out hout
    unfold main_request at hout
    rw [htok] at hout
    simp only [hm, hp, ne_eq, not_true_eq_false, or_self, if_false] at hout
    split at hout
    · rw [handle_error_404] at hout
      cases hout
      decide
    · split at hout
      · rw [handle_error_500] at hout
        cases hout
        decide
      · split at hout
        · cases hout
        · rw [get_header_200] at hout
          simp only at hout
          cases hb : copy_loop _ _ with
          | none => rw [hb] at hout; cases hout
          | some body =>
            rw [hb] at hout
            simp only [Option.map_some'] at hout
            cases hout
            simp [String.toList]

/-! ## The reactor -/

theorem epoll_ctl_del_close (st : Reactor) (fd : Nat) :
    epoll_ctl_del (close st fd) fd = close st fd := by
  simp [epoll_ctl_del, close]

/-- The writes of a step leave the descriptors, the interest set and the bytes
of the other sockets as they are, unless SIGPIPE ends the process. -/
theorem write_eq_some (st st' : Reactor) (fd : Nat) (bytes : List Char) (wr : WriteResult)
    (h : write st fd bytes wr = some st') :
    wr ≠ WriteResult.sigpipe ∧ st'.registered = st.registered ∧ st'.opened = st.opened ∧
      st'.server_fd = st.server_fd ∧ ∀ d, d ≠ fd → st'.out d = st.out d := by
  cases wr with
  | sigpipe => simp [write] at h
  | sent count =>
    simp only [write, Option.some.injEq] at h
    subst h
    refine ⟨by simp, rfl, rfl, rfl, ?_⟩
    intro d hd
    simp [Function.update, hd]

theorem write_isSome (st : Reactor) (fd : Nat) (bytes : List Char) (wr : WriteResult) :
    (write st fd bytes wr).isSome ↔ wr ≠ WriteResult.sigpipe := by
  cases wr <;> simp [write]

/-- The service step as one expression: the zero-byte read apart, the response
of the step is handed to `write`. -/
theorem main_service_eq (path : List Char) (fs : FileSystem) (st : Reactor) (c : Nat)
    (fd_read : Int) (buffer : List Char) (wr : WriteResult) :
    main_service path fs st c fd_read buffer wr =
      if fd_read = 0 then some (close st c)
      else (if fd_read < 0 then handle_error 500 else main_request path fs buffer).bind
        (fun bytes => write st c bytes wr) := by
  unfold main_service
  rw [epoll_ctl_del_close]
  split_ifs <;> rfl

/-- Claim C10, amended.  One Service step on a registered client `c` (not the
listening socket).  The step yields a next state when the read returned 0, and
also when no `write` of the step raises SIGPIPE and the read failed or the
handler returns a response; a step with a non-zero read whose `write` raises
SIGPIPE yields none, the process being terminated.  In every next state `c` is
unregistered if and only if the read returned 0 (and is then closed too), every
other descriptor is registered and open exactly as before and has received no
byte, and the listening socket keeps its registration. -/
theorem main_event_service (path : List Char) (fs : FileSystem) (st : Reactor) (c : Nat)
    (accepted : Option Nat) (ctl_ok : Bool) (fd_read : Int) (buffer : List Char)
    (wr : WriteResult) (hc : c ≠ st.server_fd) (hreg : c ∈ st.registered) :
    ((fd_read = 0 ∨ (wr ≠ WriteResult.sigpipe ∧
        (fd_read < 0 ∨ (main_request path fs buffer).isSome))) →
      (main_event path fs st c accepted ctl_ok fd_read buffer wr).isSome) ∧
    (fd_read ≠ 0 → wr = WriteResult.sigpipe →
      main_event path fs st c accepted ctl_ok fd_read buffer wr = none) ∧
    ∀ st', main_event path fs st c accepted ctl_ok fd_read buffer wr = some st' →
      (c ∉ st'.registered ↔ fd_read = 0) ∧
      (fd_read = 0 → c ∉ st'.opened) ∧
      (∀ d, d ≠ c → ((d ∈ st'.registered ↔ d ∈ st.registered) ∧
        (d ∈ st'.opened ↔ d ∈ st.opened) ∧ st'.out d = st.out d)) ∧
      st'.server_fd = st.server_fd ∧
      (st.server_fd ∈ st'.registered ↔ st.server_fd ∈ st.registered) := by
  have hev : main_event path fs st c accepted ctl_ok fd_read buffer wr
      = main_service path fs st c fd_read buffer wr := by
    simp [main_event, hc]
  rw [hev, main_service_eq]
  by_cases h0 : fd_read = 0
  · refine ⟨fun _ => by simp [h0], fun h => absurd h0 h, ?_⟩
    simp only [h0, if_true, Option.some.injEq, true_and]
    intro st' hst
    subst hst
    refine ⟨?_, ?_, ?_, rfl, ?_⟩
    · simp [close]
    · intro _; simp [close]
    · intro d hd; simp [close, hd]
    · simp [close, Ne.symm hc]
  · simp only [h0, if_false, false_or]
    refine ⟨?_, ?_, ?_⟩
    · rintro ⟨hw, hr⟩
      by_cases hneg : fd_read < 0
      · simp only [hneg, if_true, handle_error_500, Option.some_bind, write_isSome]
        exact hw
      · simp only [hneg, if_false, false_or] at hr ⊢
        obtain ⟨bytes, hb⟩ := Option.isSome_iff_exists.1 hr
        rw [hb]
        simp only [Option.some_bind, write_isSome]
        exact hw
    · intro _ hw
      subst hw
      cases (if fd_read < 0 then handle_error 500 else main_request path fs buffer) with
      | none => rfl
      | some bytes => rfl
    · intro st' hst
      obtain ⟨bytes, _, hw⟩ := Option.bind_eq_some.1 hst
      obtain ⟨_, hr, ho, hs, hout⟩ := write_eq_some st st' c bytes wr hw
      refine ⟨?_, ?_, ?_, hs, ?_⟩
      · rw [hr]; simp [hreg, h0]
      · intro h; exact h.elim
      · intro d hd; rw [hr, ho]; exact ⟨Iff.rfl, Iff.rfl, hout d hd⟩
      · rw [hr]

/-! ## Dependence on the request line -/

/-- With a request line `L` that lacks a token and nothing but line terminators
behind it, the three tokens are never `GET`, a target and `HTTP/1.1`. -/
theorem strtok3_lacking (L t : List Char) (hL : ∀ c ∈ L, isLineEnd c = false)
    (ht : ∀ c ∈ t, isLineEnd c = true) (hl : lacksToken L) (u : List Char) :
    strtok3 (L ++ t) ≠ (some "GET".toList, some u, some "HTTP/1.1".toList) := by
  have ht' : ∀ c ∈ t, c ≠ ' ' := by
    intro c hc e
    have := ht c hc
    rw [e] at this
    exact absurd this (by decide)
  have hty : ∀ a l, t = a :: l → isLineEnd a = true := by
    intro a l e; exact ht a (by simp [e])
  intro heq
  by_cases h0 : skipSpaces L = []
  · have e : (strtok3 (L ++ t)).1 = if t = [] then none else some t := by
      unfold strtok3
      rw [strtok_sp_all L t h0 ht']
      split_ifs <;> rfl
    rw [heq] at e
    split_ifs at e with h
    have hG : 'G' ∈ t := by
      have h2 : "GET".toList = t := Option.some.inj e
      rw [← h2]; decide
    exact absurd (ht 'G' hG) (by decide)
  · by_cases h1 : afterWord L = []
    · have e : (strtok3 (L ++ t)).2.1 = none := by
        unfold strtok3
        rw [strtok_sp_open L t h0 h1 ht']
        simp only [strtok_nil]
      rw [heq] at e
      cases e
    · have e2 : afterWord (afterWord L).tail = afterWord (afterWord L) :=
        congrArg (List.dropWhile (fun c => c != ' ')) (skipSpaces_afterWord_tail L)
      have e1 : lineWord (afterWord L).tail = lineTarget L :=
        congrArg (List.takeWhile (fun c => c != ' ')) (skipSpaces_afterWord_tail L)
      by_cases h2 : skipSpaces (afterWord L).tail = []
      · have e : (strtok3 (L ++ t)).2.2 = none := by
          unfold strtok3
          rw [strtok_sp_closed L t h1]
          simp only []
          rw [strtok_sp_all _ t h2 ht']
          split_ifs <;> simp only [strtok_nil]
        rw [heq] at e
        cases e
      · by_cases h3 : afterWord (afterWord L).tail = []
        · have e : (strtok3 (L ++ t)).2.2 = none := by
            unfold strtok3
            rw [strtok_sp_closed L t h1]
            simp only []
            rw [strtok_sp_open _ t h2 h3 ht']
            simp only [strtok_nil]
          rw [heq] at e
          cases e
        · by_cases h4 : (afterWord (afterWord L).tail).tail = []
          · have e : (strtok3 (L ++ t)).2.2 = none := by
              unfold strtok3
              rw [strtok_sp_closed L t h1]
              simp only []
              rw [strtok_sp_closed _ t h3]
              simp only []
              rw [h4, List.nil_append, strtok_lineEnds t ht]
            rw [heq] at e
            cases e
          · have hPL : ∀ c ∈ (afterWord (afterWord L).tail).tail, isLineEnd c = false := by
              intro c hc
              exact hL c (mem_afterWord _ _ (List.mem_of_mem_tail
                (mem_afterWord _ _ (List.mem_of_mem_tail hc))))
            have e : (strtok3 (L ++ t)).2.2 = some (afterWord (afterWord L).tail).tail := by
              unfold strtok3
              rw [strtok_sp_closed L t h1]
              simp only []
              rw [strtok_sp_closed _ t h3]
              simp only []
              rw [strtok_protocol _ t h4 hPL hty]
            rw [heq] at e
            have hP : (afterWord (afterWord L)).tail = "HTTP/1.1".toList := by
              rw [← e2]; exact (Option.some.inj e).symm
            have hm : lineMethod L ≠ [] := lineWord_ne_nil L h0
            have htg : lineTarget L ≠ [] := by
              rw [← e1]; exact lineWord_ne_nil _ h2
            have hpr : lineProtocol L ≠ [] := by
              unfold lineProtocol
              rw [← skipSpaces_afterWord_tail, hP]
              decide
            rcases hl with h | h | h
            · exact hm h
            · exact htg h
            · exact hpr h

theorem main_request_of_tokens (path : List Char) (fs : FileSystem) (b1 b2 : List Char)
    (h : main_tokens b1 = main_tokens b2) : main_request path fs b1 = main_request path fs b2 := by
  unfold main_request
  rw [h]

/-- Unless the tokens are `GET`, a target and `HTTP/1.1`, the handler writes the
400 response. -/
theorem main_request_bad_tokens (path : List Char) (fs : FileSystem) (buffer : List Char)
    (h : ∀ u, main_tokens buffer ≠ (some "GET".toList, some u, some "HTTP/1.1".toList)) :
    main_request path fs buffer = handle_error 400 := by
  unfold main_request
  rcases hm : main_tokens buffer with ⟨_ | m, _ | u, _ | p⟩ <;> simp only []
  by_cases hg : m = "GET".toList
  · by_cases hp : p = "HTTP/1.1".toList
    · exact absurd (by rw [hm, hg, hp]) (h u)
    · rw [if_pos (Or.inr hp)]
  · rw [if_pos (Or.inl hg)]

theorem drop_takeWhile_length (p : Char → Bool) (s : List Char) :
    s.drop (s.takeWhile p).length = s.dropWhile p := by
  induction s with
  | nil => rfl
  | cons x l ih =>
    by_cases hx : p x = true
    · simp [List.takeWhile_cons, List.dropWhile_cons, hx, ih]
    · simp [List.takeWhile_cons, List.dropWhile_cons, hx]

theorem firstLine_append_drop (s : List Char) :
    s = firstLine s ++ s.drop (firstLine s).length ∧
    (∀ c ∈ firstLine s, isLineEnd c = false) ∧
    (∀ a l, s.drop (firstLine s).length = a :: l → isLineEnd a = true) := by
  have hd : s.drop (firstLine s).length = s.dropWhile (fun c => !isLineEnd c) :=
    drop_takeWhile_length _ s
  refine ⟨?_, ?_, ?_⟩
  · rw [hd]; unfold firstLine; simp
  · intro c hc
    have := List.mem_takeWhile_imp hc
    simpa using this
  · intro a l e
    rw [hd] at e
    have := dropWhile_head_false _ _ a l e
    simpa using this

/-- Claim C3, amended.  For every request buffer whose string holds nothing but
line terminators after its request line, if that request line lacks a method,
a target or a protocol token, the bytes written are exactly the 400 response,
whatever the filesystem holds. -/
theorem main_request_lacking_line (root : List Char) (fs : FileSystem) (buffer : List Char)
    (hend : ∀ c ∈ (cstr buffer).drop (firstLine (cstr buffer)).length, isLineEnd c = true)
    (hlack : lacksToken (firstLine (cstr buffer))) :
    main_request root fs buffer = some
      "HTTP/1.1 400 Bad Request\nContent-Length: 24\nContent-Type: text/html\n\n<h1>400 Bad Request</h1>".toList := by
  rw [← handle_error_400]
  apply main_request_bad_tokens
  intro u
  obtain ⟨hs, hL, _⟩ := firstLine_append_drop (cstr buffer)
  unfold main_tokens
  rw [hs]
  exact strtok3_lacking _ _ hL hend hlack u

/-- The string in a buffer is the string in its first line, followed by nothing
or by bytes that start with a line terminator. -/
theorem cstr_firstLine (b : List Char) : ∃ y, cstr b = cstr (firstLine b) ++ y ∧
    (∀ a l, y = a :: l → isLineEnd a = true) := by
  have hb : b = firstLine b ++ b.dropWhile (fun c => !isLineEnd c) := by
    unfold firstLine; simp
  by_cases h : (firstLine b).dropWhile (fun c => c != NUL) = []
  · refine ⟨cstr (b.dropWhile (fun c => !isLineEnd c)), ?_, ?_⟩
    · have hall := List.dropWhile_eq_nil_iff.1 h
      have hc : cstr (firstLine b) = firstLine b := List.takeWhile_eq_self_iff.2 hall
      rw [hc]
      conv_lhs => rw [hb]
      exact cstr_append_of_no_nul _ _ (by intro c hc; simpa using hall c hc)
    · intro a l e
      cases hd : b.dropWhile (fun c => !isLineEnd c) with
      | nil => rw [hd] at e; simp [cstr] at e
      | cons x xs =>
        have hx := dropWhile_head_false _ _ x xs hd
        rw [hd] at e
        unfold cstr at e
        by_cases hxn : (x != NUL) = true
        · simp only [List.takeWhile_cons, hxn, if_true, List.cons.injEq] at e
          rw [← e.1]; simpa using hx
        · simp [List.takeWhile_cons, hxn] at e
  · refine ⟨[], ?_, by intro a l e; cases e⟩
    rw [List.append_nil]
    conv_lhs => rw [hb]
    exact takeWhile_append_of_dropWhile_ne_nil _ _ _ h

/-- Claim C9, amended.  For every root, filesystem view and two buffers with the
same first line, if that line holds a method, a target and a protocol token,
then the bytes written are the same for both buffers, and the tokens of each
buffer are those of the first line alone. -/
theorem main_request_first_line (root : List Char) (fs : FileSystem) (b1 b2 : List Char)
    (hline : firstLine b1 = firstLine b2)
    (hfull : ¬ lacksToken (cstr (firstLine b1))) :
    main_request root fs b1 = main_request root fs b2 ∧
    main_tokens b1 = main_tokens (firstLine b1) ∧
    main_tokens b2 = main_tokens (firstLine b1) := by
  have key : ∀ b, firstLine b = firstLine b1 → main_tokens b = main_tokens (firstLine b1) := by
    intro b hb
    obtain ⟨y, hy, hyE⟩ := cstr_firstLine b
    have hL : ∀ c ∈ cstr (firstLine b1), isLineEnd c = false := by
      intro c hc
      have h1 : c ∈ firstLine b1 := (List.takeWhile_sublist _).subset hc
      have := List.mem_takeWhile_imp h1
      simpa using this
    unfold main_tokens
    rw [hy, hb, strtok3_complete _ y hL hyE hfull]
    have := strtok3_complete (cstr (firstLine b1)) [] hL (by intro a l e; cases e) hfull
    rw [List.append_nil] at this
    rw [this]
  have k1 := key b1 rfl
  have k2 := key b2 hline.symm
  exact ⟨main_request_of_tokens root fs b1 b2 (k1.trans k2.symm), k1, k2⟩

/-- Counterexample to C3 as stated.  The request line of
`"GET /foo.txt \r\nHTTP/1.1\r\n"` is `"GET /foo.txt "`, which lacks a protocol
token, yet the third `strtok` skips the line terminator and takes `HTTP/1.1`
from the next line: the answer is 404 on an empty filesystem and 200 when
`/srv/foo.txt` exists, not 400. -/
theorem lacking_line_not_rejected :
    "GET /foo.txt \r\nHTTP/1.1\r\n".toList ≠ [] ∧
    firstLine "GET /foo.txt \r\nHTTP/1.1\r\n".toList = "GET /foo.txt ".toList ∧
    lacksToken (firstLine "GET /foo.txt \r\nHTTP/1.1\r\n".toList) ∧
    main_tokens "GET /foo.txt \r\nHTTP/1.1\r\n".toList
      = (some "GET".toList, some "/foo.txt".toList, some "HTTP/1.1".toList) ∧
    main_request "/srv".toList fs_empty "GET /foo.txt \r\nHTTP/1.1\r\n".toList = some
      "HTTP/1.1 404 Not Found\nContent-Length: 22\nContent-Type: text/html\n\n<h1>404 Not Found</h1>".toList ∧
    main_request "/srv".toList (fs_single "/srv/foo.txt".toList "hi".toList)
      "GET /foo.txt \r\nHTTP/1.1\r\n".toList = some
      "HTTP/1.1 200 OK\nContent-Length: 2\nContent-Type: text/plain\n\nhi".toList := by
  decide

/-- Witness of C3 (amended) at `"GET /a.txt\r\n"`, with the file present. -/
theorem main_request_lacking_line_witness :
    main_request "/srv".toList (fs_single "/srv/a.txt".toList "hi".toList)
      "GET /a.txt\r\n".toList = some
      "HTTP/1.1 400 Bad Request\nContent-Length: 24\nContent-Type: text/html\n\n<h1>400 Bad Request</h1>".toList :=
  main_request_lacking_line "/srv".toList (fs_single "/srv/a.txt".toList "hi".toList)
    "GET /a.txt\r\n".toList (by decide) (by decide)

/-- Counterexample to C9 as stated.  Two buffers with the same first line
`"GET /a.txt "` that differ only behind it are answered differently (200 with
the file, and 400), and the protocol token of the first comes from its second
line. -/
theorem first_line_not_decisive :
    firstLine "GET /a.txt \r\nHTTP/1.1\r\n".toList = firstLine "GET /a.txt \r\nHTTP/1.0\r\n".toList ∧
    firstLine "GET /a.txt \r\nHTTP/1.1\r\n".toList = "GET /a.txt ".toList ∧
    main_request "/srv".toList (fs_single "/srv/a.txt".toList "hi".toList)
      "GET /a.txt \r\nHTTP/1.1\r\n".toList = some
      "HTTP/1.1 200 OK\nContent-Length: 2\nContent-Type: text/plain\n\nhi".toList ∧
    main_request "/srv".toList (fs_single "/srv/a.txt".toList "hi".toList)
      "GET /a.txt \r\nHTTP/1.0\r\n".toList = some
      "HTTP/1.1 400 Bad Request\nContent-Length: 24\nContent-Type: text/html\n\n<h1>400 Bad Request</h1>".toList ∧
    (main_tokens "GET /a.txt \r\nHTTP/1.1\r\n".toList).2.2 = some "HTTP/1.1".toList ∧
    (main_tokens (firstLine "GET /a.txt \r\nHTTP/1.1\r\n".toList)).2.2 = none := by
  decide

/-- Witness of C9 (amended): the same request line followed by different
header lines. -/
theorem main_request_first_line_witness :
    main_request "/srv".toList (fs_single "/srv/a.txt".toList "hi".toList)
        "GET /a.txt HTTP/1.1\r\nHost: x\r\n\r\n".toList
      = main_request "/srv".toList (fs_single "/srv/a.txt".toList "hi".toList)
        "GET /a.txt HTTP/1.1\nAccept: y\n".toList :=
  (main_request_first_line "/srv".toList (fs_single "/srv/a.txt".toList "hi".toList)
    "GET /a.txt HTTP/1.1\r\nHost: x\r\n\r\n".toList "GET /a.txt HTTP/1.1\nAccept: y\n".toList
    (by decide) (by decide)).1

/-- Counterexample to C10 as stated.  The read on the registered client 5
fails and the peer has shut the connection down: the `write` of the 500
response raises SIGPIPE, the process is terminated, and there is no next state
in which 5 is still registered and 6 unchanged.  Nor is there one after the
request for `/srv/README`, on which the handler does not return. -/
theorem service_step_not_survived :
    5 ≠ reactor_example.server_fd ∧ 5 ∈ reactor_example.registered ∧
    6 ∈ reactor_example.registered ∧
    main_event "/srv".toList fs_empty reactor_example 5 none false (-1) []
      WriteResult.sigpipe = none ∧
    (¬ ∃ st', main_event "/srv".toList fs_empty reactor_example 5 none false (-1) []
      WriteResult.sigpipe = some st' ∧ 5 ∈ st'.registered ∧ 6 ∈ st'.registered) ∧
    main_event "/srv".toList (fs_single "/srv/README".toList "hi".toList) reactor_example 5
      none false 22 "GET /README HTTP/1.1\r\n".toList (WriteResult.sent 1000) = none := by
  have h1 : main_event "/srv".toList fs_empty reactor_example 5 none false (-1) []
      WriteResult.sigpipe = none := by
    have hev : (5 : Nat) ≠ reactor_example.server_fd := by decide
    simp only [main_event, hev, if_false]
    rw [main_service_eq]
    simp [handle_error_500, write]
  have h2 : main_request "/srv".toList (fs_single "/srv/README".toList "hi".toList)
      "GET /README HTTP/1.1\r\n".toList = none := by decide
  refine ⟨by decide, by decide, by decide, h1, ?_, ?_⟩
  · rintro ⟨st', hst, _⟩
    rw [h1] at hst
    cases hst
  · have hev : (5 : Nat) ≠ reactor_example.server_fd := by decide
    simp only [main_event, hev, if_false]
    rw [main_service_eq, h2]
    simp

/-- Witness of C10 (amended) on the reactor with clients 5 and 6: a zero-byte
read on 5 removes 5 alone; a failed read answered with the 500 response, and a
request answered with a 200 response, keep 5 registered. -/
theorem main_event_service_witness :
    (∃ st', main_event "/srv".toList fs_empty reactor_example 5 none false 0 []
        WriteResult.sigpipe = some st' ∧
      5 ∉ st'.registered ∧ 5 ∉ st'.opened ∧ 6 ∈ st'.registered ∧ 3 ∈ st'.registered) ∧
    (∃ st', main_event "/srv".toList fs_empty reactor_example 5 none false (-1) []
        (WriteResult.sent 100) = some st' ∧
      5 ∈ st'.registered ∧ 6 ∈ st'.registered ∧ 3 ∈ st'.registered) ∧
    (∃ st', main_event "/srv".toList (fs_single "/srv/index.html".toList "hello".toList)
        reactor_example 5 none false 16 "GET / HTTP/1.1\r\n".toList
        (WriteResult.sent 100) = some st' ∧
      5 ∈ st'.registered ∧ 6 ∈ st'.registered ∧ 3 ∈ st'.registered) := by
  refine ⟨?_, ?_, ?_⟩
  · obtain ⟨hA, _, hB⟩ := main_event_service "/srv".toList fs_empty reactor_example 5 none false
      0 [] WriteResult.sigpipe (by decide) (by decide)
    obtain ⟨st', hst⟩ := Option.isSome_iff_exists.1 (hA (Or.inl rfl))
    obtain ⟨hiff, hcl, hoth, _, hsrv⟩ := hB st' hst
    exact ⟨st', hst, hiff.2 rfl, hcl rfl, (hoth 6 (by decide)).1.2 (by decide),
      hsrv.2 (by decide)⟩
  · obtain ⟨hA, _, hB⟩ := main_event_service "/srv".toList fs_empty reactor_example 5 none false
      (-1) [] (WriteResult.sent 100) (by decide) (by decide)
    obtain ⟨st', hst⟩ := Option.isSome_iff_exists.1
      (hA (Or.inr ⟨by decide, Or.inl (by decide)⟩))
    obtain ⟨hiff, _, hoth, _, hsrv⟩ := hB st' hst
    refine ⟨st', hst, ?_, (hoth 6 (by decide)).1.2 (by decide), hsrv.2 (by decide)⟩
    by_contra h
    exact absurd (hiff.1 h) (by decide)
  · obtain ⟨hA, _, hB⟩ := main_event_service "/srv".toList
      (fs_single "/srv/index.html".toList "hello".toList) reactor_example 5 none false
      16 "GET / HTTP/1.1\r\n".toList (WriteResult.sent 100) (by decide) (by decide)
    obtain ⟨st', hst⟩ := Option.isSome_iff_exists.1
      (hA (Or.inr ⟨by decide, Or.inr (by decide)⟩))
    obtain ⟨hiff, _, hoth, _, hsrv⟩ := hB st' hst
    refine ⟨st', hst, ?_, (hoth 6 (by decide)).1.2 (by decide), hsrv.2 (by decide)⟩
    by_contra h
    exact absurd (hiff.1 h) (by decide)

/-- Witness of C4: `get` and the protocol `" HTTP/1.1"` are rejected, and
`GET /a.css HTTP/1.1` on an empty filesystem is not answered with 400. -/
theorem main_request_method_protocol_witness :
    main_request "/srv".toList fs_empty "get /a.css HTTP/1.1\r\n".toList = some
      "HTTP/1.1 400 Bad Request\nContent-Length: 24\nContent-Type: text/html\n\n<h1>400 Bad Request</h1>".toList ∧
    main_request "/srv".toList fs_empty "GETX /a.css HTTP/1.1\r\n".toList = some
      "HTTP/1.1 400 Bad Request\nContent-Length: 24\nContent-Type: text/html\n\n<h1>400 Bad Request</h1>".toList ∧
    main_request "/srv".toList fs_empty "GET /a.css HTTP/1.0\r\n".toList = some
      "HTTP/1.1 400 Bad Request\nContent-Length: 24\nContent-Type: text/html\n\n<h1>400 Bad Request</h1>".toList ∧
    main_request "/srv".toList fs_empty "GET /a.css  HTTP/1.1\r\n".toList = some
      "HTTP/1.1 400 Bad Request\nContent-Length: 24\nContent-Type: text/html\n\n<h1>400 Bad Request</h1>".toList ∧
    ¬ "HTTP/1.1 400".toList <+:
      "HTTP/1.1 404 Not Found\nContent-Length: 22\nContent-Type: text/html\n\n<h1>404 Not Found</h1>".toList :=
  ⟨(main_request_method_protocol "/srv".toList "get /a.css HTTP/1.1\r\n".toList "get".toList
      "/a.css".toList "HTTP/1.1".toList (by decide)).1 (by decide) fs_empty,
   (main_request_method_protocol "/srv".toList "GETX /a.css HTTP/1.1\r\n".toList "GETX".toList
      "/a.css".toList "HTTP/1.1".toList (by decide)).1 (by decide) fs_empty,
   (main_request_method_protocol "/srv".toList "GET /a.css HTTP/1.0\r\n".toList "GET".toList
      "/a.css".toList "HTTP/1.0".toList (by decide)).1 (by decide) fs_empty,
   (main_request_method_protocol "/srv".toList "GET /a.css  HTTP/1.1\r\n".toList "GET".toList
      "/a.css".toList " HTTP/1.1".toList (by decide)).1 (by decide) fs_empty,
   (main_request_method_protocol "/srv".toList "GET /a.css HTTP/1.1\r\n".toList "GET".toList
      "/a.css".toList "HTTP/1.1".toList (by decide)).2 ⟨rfl, rfl⟩ fs_empty _ (by decide)⟩

end WebServer
